import Mathlib

/-!
Shallow embedding of the openclaw-xmtp channel plugin core.

JavaScript strings are modelled as `List Char`; JavaScript `Map`s are
modelled as association lists that preserve insertion order, matching the
iteration-order guarantees of `Map` (`set` on an existing key updates in
place, a new key is appended; `keys().next().value` is the first key).
Timestamps (`Date.now()`) are explicit `Nat` parameters.  Fallible code
returns `Except`/`Option`.
-/

/-- JavaScript strings modelled as lists of characters. -/
abbrev JSString := List Char

/-- ASCII model of JavaScript `String.prototype.toLowerCase` (per-character). -/
def jsToLower (c : Char) : Char :=
  if 65 ≤ c.toNat ∧ c.toNat ≤ 90 then Char.ofNat (c.toNat + 32) else c

/-- The code points JavaScript `String.prototype.trim` treats as whitespace. -/
def jsIsWhitespace (c : Char) : Bool :=
  decide (c.toNat ∈ [9, 10, 11, 12, 13, 32, 160, 5760, 8192, 8193, 8194, 8195,
    8196, 8197, 8198, 8199, 8200, 8201, 8202, 8232, 8233, 8239, 8287, 12288, 65279])

/-- JavaScript `s.startsWith(p)`. -/
def startsWithJS (s p : JSString) : Bool :=
  match s, p with
  | _, [] => true
  | [], _ :: _ => false
  | c :: s1, q :: p1 => q == c && startsWithJS s1 p1

/-- JavaScript `s.endsWith(p)`. -/
def endsWithJS (s p : JSString) : Bool :=
  startsWithJS s.reverse p.reverse

/-- JavaScript `s.trim()`: strip whitespace from both ends. -/
def jsTrim (s : JSString) : JSString :=
  ((s.dropWhile jsIsWhitespace).reverse.dropWhile jsIsWhitespace).reverse

/-- types.ts `normalizeAddress`: `address.toLowerCase().trim()`. -/
def normalizeAddress (address : JSString) : JSString :=
  jsTrim (address.map jsToLower)

/-- JavaScript `Map.get`: first (unique) binding of the key, if any. -/
def assocGet {α : Type} (s : List (JSString × α)) (k : JSString) : Option α :=
  match s with
  | [] => none
  | (k1, v) :: rest => if k1 = k then some v else assocGet rest k

/-- JavaScript `Map.set`: update an existing key in place, else append the new binding. -/
def assocSet {α : Type} (s : List (JSString × α)) (k : JSString) (v : α) :
    List (JSString × α) :=
  match s with
  | [] => [(k, v)]
  | (k1, v1) :: rest => if k1 = k then (k, v) :: rest else (k1, v1) :: assocSet rest k v

/-- JavaScript `Map.delete`: remove the (unique) binding of the key. -/
def assocDelete {α : Type} (s : List (JSString × α)) (k : JSString) :
    List (JSString × α) :=
  match s with
  | [] => []
  | (k1, v1) :: rest => if k1 = k then rest else (k1, v1) :: assocDelete rest k

/-- The keys of an association list, in insertion order. -/
def assocKeys {α : Type} (s : List (JSString × α)) : List JSString :=
  s.map Prod.fst

/-! ### Deduplication tracker (xmtp-client.ts, class SeenTracker) -/

/-- The store `SeenTracker.seen`: message id -> first-seen timestamp, insertion ordered. -/
abbrev SeenMap := List (JSString × Nat)

/-- xmtp-client.ts `SeenTracker.maxSize`. -/
def maxSize : Nat := 10000

/-- xmtp-client.ts `SeenTracker.ttlMs` (1 hour). -/
def ttlMs : Nat := 60 * 60 * 1000

/-- xmtp-client.ts `SeenTracker.hasSeen`.  `Date.now()` is the explicit `now`.
The guard `if (!ts) return false` is false both for a missing entry and for a
stored timestamp `0` (JavaScript falsiness).  An expired entry is deleted as a
side effect; the updated map is returned alongside the result. -/
def hasSeen (now : Nat) (s : SeenMap) (id : JSString) : Bool × SeenMap :=
  match assocGet s id with
  | none => (false, s)
  | some ts =>
    if ts = 0 then (false, s)
    else if ttlMs < now - ts then (false, assocDelete s id)
    else (true, s)

/-- The expiry pruning loop inside `markSeen`: delete every entry whose age
exceeds the TTL (iterating a JS `Map` while deleting visits remaining entries,
so this is a filter). -/
def pruneExpired (now : Nat) (s : SeenMap) : SeenMap :=
  s.filter (fun p => decide (now - p.2 ≤ ttlMs))

/-- The oldest-entry eviction inside `markSeen`:
`const oldest = this.seen.keys().next().value; if (oldest) this.seen.delete(oldest)`.
On an empty map `oldest` is `undefined` (falsy); on a nonempty map it is the
first inserted key, which is falsy exactly when it is the empty string, in
which case the deletion is skipped. -/
def evictOldest (s : SeenMap) : SeenMap :=
  match s with
  | [] => s
  | (k, _) :: _ => if k = [] then s else assocDelete s k

/-- xmtp-client.ts `SeenTracker.markSeen`: when at capacity, prune expired
entries, then (if still at capacity) evict the oldest entry; finally record
`now` for `id`, overwriting any prior timestamp. -/
def markSeen (now : Nat) (s : SeenMap) (id : JSString) : SeenMap :=
  let s1 :=
    if maxSize ≤ s.length then
      let pruned := pruneExpired now s
      if maxSize ≤ pruned.length then evictOldest pruned else pruned
    else s
  assocSet s1 id now

/-- Apply `markSeen` at a fixed time to a list of ids, left to right. -/
def markMany (t : Nat) (ids : List JSString) (s : SeenMap) : SeenMap :=
  ids.foldl (fun acc id => markSeen t acc id) s

/-- The message id consisting of `n` repetitions of the letter a (used to build
concrete call sequences; `idOf 0` is the empty string). -/
def idOf (n : Nat) : JSString :=
  List.replicate n 'a'

/-! ### Configuration and account resolution (config-schema.ts, types.ts) -/

/-- config-schema.ts `XmtpAccountConfigSchema`; optional fields are `Option`.
`privateKey` is required by the schema but the resolver still guards it with
`?? ""`, so it is modelled as optional. -/
structure XmtpAccountConfig where
  privateKey : Option JSString
  enabled : Option Bool
  name : Option JSString
  dbPath : Option JSString

/-- config-schema.ts `XmtpConfigSchema` (the `markdown` block is opaque to the
core and omitted).  `accounts` is a record keyed by account id, modelled as an
insertion-ordered association list (`Object.keys` order). -/
structure XmtpConfig where
  name : Option JSString
  enabled : Option Bool
  accounts : Option (List (JSString × XmtpAccountConfig))
  dmPolicy : Option JSString
  allowFrom : Option (List JSString)

/-- The host configuration as seen by types.ts `getXmtpConfig`:
`cfg.channels?.xmtp`, i.e. the optional `channels.xmtp` block. -/
structure OpenClawConfig where
  xmtp : Option XmtpConfig

/-- The config sub-object of types.ts `ResolvedXmtpAccount`. -/
structure ResolvedAccountConfigBlock where
  privateKey : JSString
  dmPolicy : JSString
  allowFrom : List JSString

/-- types.ts `ResolvedXmtpAccount`. -/
structure ResolvedXmtpAccount where
  accountId : JSString
  name : Option JSString
  enabled : Bool
  configured : Bool
  privateKey : JSString
  dbPath : Option JSString
  address : Option JSString
  config : ResolvedAccountConfigBlock

/-- The process environment (`process.env`): a partial map from names to values. -/
abbrev Env := JSString → Option JSString

/-- types.ts `listXmtpAccountIds`: `Object.keys(xmtp.accounts)` or `[]`. -/
def listXmtpAccountIds (cfg : OpenClawConfig) : List JSString :=
  match cfg.xmtp with
  | none => []
  | some x =>
    match x.accounts with
    | none => []
    | some accs => assocKeys accs

/-- types.ts `resolveDefaultXmtpAccountId`: `accountIds[0] ?? "default"`. -/
def resolveDefaultXmtpAccountId (cfg : OpenClawConfig) : JSString :=
  (listXmtpAccountIds cfg).headD (("default").data)

/-- types.ts: the lookup `xmtp?.accounts?.[aid]` inside `resolveXmtpAccount`. -/
def lookupAccountConfig (cfg : OpenClawConfig) (aid : JSString) :
    Option XmtpAccountConfig :=
  match cfg.xmtp with
  | none => none
  | some x =>
    match x.accounts with
    | none => none
    | some accs => assocGet accs aid

/-- types.ts: the environment-variable substitution inside `resolveXmtpAccount`:
if the raw value starts with a dollar-brace and ends with a closing brace, look
up `process.env[value.slice(2, -1)]` (empty string when unset); otherwise use
the literal value. -/
def resolvePrivateKeyEnv (env : Env) (raw : JSString) : JSString :=
  if startsWithJS raw (("$\x7b").data) && endsWithJS raw (("\x7d").data) then
    (env ((raw.drop 2).dropLast)).getD []
  else raw

/-- types.ts `resolveXmtpAccount`. -/
def resolveXmtpAccount (env : Env) (cfg : OpenClawConfig)
    (accountId : Option JSString) : ResolvedXmtpAccount :=
  let aid := accountId.getD (resolveDefaultXmtpAccountId cfg)
  let dmPolicyResolved := (cfg.xmtp.bind XmtpConfig.dmPolicy).getD (("pairing").data)
  let allowFromResolved := (cfg.xmtp.bind XmtpConfig.allowFrom).getD []
  match lookupAccountConfig cfg aid with
  | none =>
    { accountId := aid
      name := none
      enabled := false
      configured := false
      privateKey := []
      dbPath := none
      address := none
      config :=
        { privateKey := []
          dmPolicy := dmPolicyResolved
          allowFrom := allowFromResolved } }
  | some accountConfig =>
    let privateKey := resolvePrivateKeyEnv env (accountConfig.privateKey.getD [])
    let configured := decide (privateKey ≠ []) &&
      startsWithJS privateKey (("0x").data) && decide (privateKey.length = 66)
    { accountId := aid
      name := accountConfig.name
      enabled := decide (accountConfig.enabled ≠ some false)
      configured := configured
      privateKey := privateKey
      dbPath := accountConfig.dbPath
      address := none
      config :=
        { privateKey := privateKey
          dmPolicy := dmPolicyResolved
          allowFrom := allowFromResolved } }

/-- A hexadecimal digit (0-9, a-f, A-F), by code point. -/
def isHexChar (c : Char) : Bool :=
  decide ((48 ≤ c.toNat ∧ c.toNat ≤ 57) ∨ (97 ≤ c.toNat ∧ c.toNat ≤ 102) ∨
    (65 ≤ c.toNat ∧ c.toNat ≤ 70))

/-- Following the spec's words (section 3): `configured == true` requires
`privateKey` matches the exact shape `0x` followed by 64 hexadecimal
characters.  This definition is written from the spec, to be compared with the
`configured` flag the source computes. -/
def specConfiguredKeyShape (s : JSString) : Bool :=
  startsWithJS s (("0x").data) && decide (s.length = 66) && (s.drop 2).all isHexChar

/-! ### Channel plugin operations (channel.ts) -/

/-- The host SDK constant `DEFAULT_ACCOUNT_ID`.  Modelled from the spec: the
constant is owned by the plugin-sdk collaborator; the resolver in types.ts and
spec section 4.3 fall back to the literal `default`. -/
def DEFAULT_ACCOUNT_ID : JSString :=
  ("default").data

/-- xmtp-client.ts `XmtpClientHandle` (the send/stop capabilities are external;
the network address identifies the handle). -/
structure XmtpHandle where
  address : JSString

/-- channel.ts `activeClients`: the process-wide registry of running clients. -/
abbrev Registry := List (JSString × XmtpHandle)

/-- Result of channel.ts `outbound.sendText`. -/
structure SendTextResult where
  channel : JSString
  «to» : JSString

/-- channel.ts `outbound.sendText`: resolve the account id (`accountId ??
DEFAULT_ACCOUNT_ID`), fail with a descriptive error when no client is
registered for it, otherwise send and return the channel name and the
normalized target. -/
def sendText (registry : Registry) («to» : JSString) (accountId : Option JSString) :
    Except JSString SendTextResult :=
  let aid := accountId.getD DEFAULT_ACCOUNT_ID
  match assocGet registry aid with
  | none => Except.error ((("XMTP client not running for account ").data) ++ aid)
  | some _ => Except.ok { channel := ("xmtp").data, «to» := normalizeAddress «to» }

/-- The text sent by channel.ts `pairing.notifyApproval`. -/
def approvalMessage : JSString :=
  ("Your pairing request has been approved!").data

/-- channel.ts `pairing.notifyApproval`: look up the client registered for
`DEFAULT_ACCOUNT_ID`; when present, send the approval DM to the approved id
through it; when absent, do nothing.  The result records which handle sent
what to whom (`none` = no message sent). -/
def notifyApproval (registry : Registry) (id : JSString) :
    Option (XmtpHandle × JSString × JSString) :=
  match assocGet registry DEFAULT_ACCOUNT_ID with
  | none => none
  | some client => some (client, id, approvalMessage)

/-- Result of channel.ts `gateway.startAccount`: whether `startXmtpClient` was
invoked (a connection attempt was made), the registry afterwards, and the
error surfaced to the caller, if any. -/
structure StartOutcome where
  openedConnection : Bool
  registry : Registry
  error : Option JSString

/-- channel.ts `gateway.startAccount`: throw before any connection attempt when
the account is not configured; otherwise invoke `startXmtpClient` (modelled by
the `connect` argument: the connection either fails with an error, which
propagates, or yields a handle, which is registered under the account id). -/
def startAccount (registry : Registry) (account : ResolvedXmtpAccount)
    (connect : Except JSString XmtpHandle) : StartOutcome :=
  if account.configured = false then
    { openedConnection := false
      registry := registry
      error := some (("XMTP private key not configured").data) }
  else
    match connect with
    | Except.error e =>
      { openedConnection := true, registry := registry, error := some e }
    | Except.ok client =>
      { openedConnection := true
        registry := assocSet registry account.accountId client
        error := none }

/-! ### Inbound text handler (xmtp-client.ts, the `agent.on("text", ...)` body) -/

/-- The onMessage invocation produced by the inbound text handler. -/
structure InboundInvocation where
  sender : JSString
  text : JSString

/-- xmtp-client.ts text handler: drop messages from self; drop ids already
seen; otherwise mark the id seen, resolve the sender address asynchronously
and invoke `onMessage(senderAddress ?? "unknown", text, reply)`.  Returns the
invocation made (if any) and the tracker state afterwards. -/
def handleTextMessage (fromSelf : Bool) (messageId : JSString)
    (senderAddress : Option JSString) (text : JSString) (now : Nat)
    (tracker : SeenMap) : Option InboundInvocation × SeenMap :=
  if fromSelf then (none, tracker)
  else
    let checked := hasSeen now tracker messageId
    if checked.1 then (none, checked.2)
    else
      let tracker2 := markSeen now checked.2 messageId
      (some { sender := senderAddress.getD (("unknown").data), text := text }, tracker2)

/-! ### Concrete inputs used by witnesses and counterexamples -/

/-- A handle for an account other than the default one, used to exhibit the
behavior of the approval hook. -/
def altHandle : XmtpHandle :=
  { address := ("0xaltaddress").data }

/-- A 66-character key that passes the source's `configured` check but is not
hexadecimal: `0x` followed by 64 letters z. -/
def badHexKey : JSString :=
  ("0x").data ++ List.replicate 64 'z'

/-- A well-formed key: `0x` followed by 64 hexadecimal characters. -/
def goodHexKey : JSString :=
  ("0x").data ++ List.replicate 64 'a'

/-- An account block with a literal (non-placeholder) private key. -/
def accountBlockWithKey (key : JSString) : XmtpAccountConfig :=
  { privateKey := some key
    enabled := none
    name := none
    dbPath := none }

/-- A configuration whose single account `a` carries the given raw key. -/
def cfgWithKey (key : JSString) : OpenClawConfig :=
  { xmtp := some
      { name := none
        enabled := none
        accounts := some [((("a").data), accountBlockWithKey key)]
        dmPolicy := none
        allowFrom := none } }

/-- A configuration whose single account `acc` uses the placeholder
`privateKey` referring to the environment variable FOO. -/
def cfgFOO : OpenClawConfig :=
  { xmtp := some
      { name := none
        enabled := none
        accounts := some
          [((("acc").data), accountBlockWithKey (("$\x7bFOO\x7d").data))]
        dmPolicy := none
        allowFrom := none } }

/-- An environment in which FOO is set to a well-formed key. -/
def envFOO : Env :=
  fun n => if n = ("FOO").data then some goodHexKey else none

/-! ### Helper lemmas about the association-list model of `Map` -/

theorem assocGet_assocSet_self {α : Type} (s : List (JSString × α)) (k : JSString)
    (v : α) : assocGet (assocSet s k v) k = some v := by
  induction s with
  | nil => simp [assocSet, assocGet]
  | cons hd tl ih =>
    obtain ⟨k1, v1⟩ := hd
    by_cases h : k1 = k
    · simp [assocSet, assocGet, h]
    · simp [assocSet, assocGet, h, ih]

/-! ### C1: mark-then-check round trip of the deduplication tracker -/

/-- C1: for every message id, marking it seen at time `t1` (any positive clock
reading) and then checking at time `t2` returns true while the entry age is
within the 1-hour retention window and false once the age exceeds it; and
checking an id that was never marked returns false. -/
theorem markSeen_hasSeen_window (s : SeenMap) (m : JSString) (t1 t2 : Nat)
    (h1 : 0 < t1) :
    (t2 - t1 ≤ ttlMs → (hasSeen t2 (markSeen t1 s m) m).1 = true)
  ∧ (ttlMs < t2 - t1 → (hasSeen t2 (markSeen t1 s m) m).1 = false)
  ∧ (∀ s2 id2, assocGet s2 id2 = none → (hasSeen t2 s2 id2).1 = false) := by
  have hget : assocGet (markSeen t1 s m) m = some t1 :=
    assocGet_assocSet_self _ _ _
  have hne : t1 ≠ 0 := Nat.pos_iff_ne_zero.mp h1
  refine ⟨?_, ?_, ?_⟩
  · intro hin
    simp [hasSeen, hget, hne, Nat.not_lt.mpr hin]
  · intro hout
    simp [hasSeen, hget, hne, hout]
  · intro s2 id2 hnone
    simp [hasSeen, hnone]

theorem markSeen_hasSeen_window_witness :
    (hasSeen 1 (markSeen 1 [] (("m").data)) (("m").data)).1 = true :=
  (markSeen_hasSeen_window [] (("m").data) 1 1 (by decide)).1 (by decide)

/-! ### C5: startAccount fails fast on an unconfigured account -/

/-- C5: for every registry state and connection behavior, starting an account
whose descriptor has `configured == false` raises the configuration error
without opening a connection, and leaves the active-clients registry
unchanged (the account is never inserted). -/
theorem startAccount_unconfigured (registry : Registry)
    (account : ResolvedXmtpAccount) (connect : Except JSString XmtpHandle)
    (h : account.configured = false) :
    startAccount registry account connect =
      { openedConnection := false
        registry := registry
        error := some (("XMTP private key not configured").data) } := by
  simp [startAccount, h]

theorem startAccount_unconfigured_witness :
    startAccount [] (resolveXmtpAccount (fun _ => none) { xmtp := none } none)
        (Except.error []) =
      { openedConnection := false
        registry := []
        error := some (("XMTP private key not configured").data) } :=
  startAccount_unconfigured [] _ _ (by decide)

/-! ### C6: outbound sendText fails descriptively without a running client -/

/-- C6: for every call to `sendText`, when the resolved account id (the given
one, or the default id when omitted) has no entry in the active-clients
registry, the call fails with a descriptive error naming that account id;
when a client is registered it returns the channel name and the normalized
target address. -/
theorem sendText_requires_running_client :
    (∀ (registry : Registry) (target : JSString) (accountId : Option JSString),
      assocGet registry (accountId.getD DEFAULT_ACCOUNT_ID) = none →
        sendText registry target accountId =
          Except.error ((("XMTP client not running for account ").data) ++
            accountId.getD DEFAULT_ACCOUNT_ID))
  ∧ (∀ (registry : Registry) (target : JSString) (accountId : Option JSString)
      (client : XmtpHandle),
      assocGet registry (accountId.getD DEFAULT_ACCOUNT_ID) = some client →
        sendText registry target accountId =
          Except.ok { channel := ("xmtp").data, «to» := normalizeAddress target }) := by
  constructor
  · intro registry target accountId h
    simp [sendText, h]
  · intro registry target accountId client h
    simp [sendText, h]

theorem sendText_requires_running_client_witness :
    sendText [] (("0xAB").data) (some (("acc1").data)) =
      Except.error ((("XMTP client not running for account ").data) ++
        (("acc1").data)) :=
  sendText_requires_running_client.1 [] (("0xAB").data) (some (("acc1").data)) rfl

/-! ### C8: which client delivers the pairing-approval notification -/

/-- C8 counterexample: the account `alt` has a running registered client, its
pairing is approved, yet `notifyApproval` sends nothing at all (it only ever
consults the registry entry of the default account id), contradicting the
claim that the sender is notified through the approved account's client. -/
theorem notifyApproval_ignores_account :
    assocGet [((("alt").data), altHandle)] (("alt").data) = some altHandle
  ∧ notifyApproval [((("alt").data), altHandle)] (("0xsender").data) = none := by
  constructor
  · rfl
  · rfl

/-- C8 amended: the approval hook notifies the approved sender through the
client registered for the default account id when one is running — regardless
of which account's pairing was approved — and sends nothing when no client is
registered for the default account id. -/
theorem notifyApproval_uses_default_client :
    (∀ (registry : Registry) (id : JSString) (client : XmtpHandle),
      assocGet registry DEFAULT_ACCOUNT_ID = some client →
        notifyApproval registry id = some (client, id, approvalMessage))
  ∧ (∀ (registry : Registry) (id : JSString),
      assocGet registry DEFAULT_ACCOUNT_ID = none →
        notifyApproval registry id = none) := by
  constructor
  · intro registry id client h
    simp [notifyApproval, h]
  · intro registry id h
    simp [notifyApproval, h]

theorem notifyApproval_uses_default_client_witness :
    notifyApproval [(DEFAULT_ACCOUNT_ID, altHandle)] (("0xsender").data) =
      some (altHandle, (("0xsender").data), approvalMessage) :=
  notifyApproval_uses_default_client.1 [(DEFAULT_ACCOUNT_ID, altHandle)]
    (("0xsender").data) altHandle rfl

/-! ### C9: the default of the `enabled` flag -/

/-- C9 counterexample: with an empty configuration, account id `a` has no raw
config block at all — so nothing explicitly sets `enabled` to false — yet the
resolved descriptor has `enabled == false`, contradicting the claim that
`enabled` is true unless the block explicitly sets it false. -/
theorem enabled_false_without_block :
    lookupAccountConfig { xmtp := none } (("a").data) = none
  ∧ (resolveXmtpAccount (fun _ => none) { xmtp := none }
      (some (("a").data))).enabled = false := by
  constructor
  · rfl
  · rfl

/-- C9 amended: when the account's raw config block is present, the resolved
`enabled` field is true unless the block explicitly sets `enabled` to false;
when the block is absent, `enabled` is false. -/
theorem enabled_default (env : Env) (cfg : OpenClawConfig) (aid : JSString) :
    (∀ acc, lookupAccountConfig cfg aid = some acc →
      (resolveXmtpAccount env cfg (some aid)).enabled =
        decide (acc.enabled ≠ some false))
  ∧ (lookupAccountConfig cfg aid = none →
      (resolveXmtpAccount env cfg (some aid)).enabled = false) := by
  constructor
  · intro acc h
    simp [resolveXmtpAccount, h]
  · intro h
    simp [resolveXmtpAccount, h]

theorem enabled_default_witness :
    (resolveXmtpAccount (fun _ => none) { xmtp := none }
      (some (("a").data))).enabled = false :=
  (enabled_default (fun _ => none) { xmtp := none } (("a").data)).2 rfl

/-! ### C10: inbound messages whose sender address does not resolve -/

/-- C10: for every inbound text message not from the account itself and not a
duplicate, when the asynchronous sender-address resolution yields no address,
the `onMessage` callback is still invoked — with the literal string `unknown`
as the sender address and the original text — rather than the message being
dropped. -/
theorem onMessage_unknown_sender (messageId text : JSString) (now : Nat)
    (tracker : SeenMap)
    (h : (hasSeen now tracker messageId).1 = false) :
    (handleTextMessage false messageId none text now tracker).1 =
      some { sender := ("unknown").data, text := text } := by
  simp [handleTextMessage, h]

theorem onMessage_unknown_sender_witness :
    (handleTextMessage false (("m1").data) none (("hi").data) 5 []).1 =
      some { sender := ("unknown").data, text := ("hi").data } :=
  onMessage_unknown_sender (("m1").data) (("hi").data) 5 [] (by decide)

/-! ### C3: what `configured == true` guarantees about the key shape -/

/-- C3 counterexample: a raw private key consisting of `0x` followed by 64
letters z resolves with `configured == true`, although it is not `0x` followed
by 64 hexadecimal characters — the source checks only the prefix and the
total length, never that the characters are hexadecimal. -/
theorem configured_accepts_non_hex :
    (resolveXmtpAccount (fun _ => none) (cfgWithKey badHexKey)
      (some (("a").data))).configured = true
  ∧ specConfiguredKeyShape
      ((resolveXmtpAccount (fun _ => none) (cfgWithKey badHexKey)
        (some (("a").data))).privateKey) = false := by
  constructor
  · decide
  · decide

/-- C3 amended: for every configuration and account id, if the resolved
descriptor has `configured == true` then the resolved private key starts with
the two characters `0x` and has total length 66 (64 further characters, which
are not validated as hexadecimal). -/
theorem configured_key_shape (env : Env) (cfg : OpenClawConfig)
    (accountId : Option JSString)
    (h : (resolveXmtpAccount env cfg accountId).configured = true) :
    startsWithJS (resolveXmtpAccount env cfg accountId).privateKey
      (("0x").data) = true
  ∧ (resolveXmtpAccount env cfg accountId).privateKey.length = 66 := by
  cases hl : lookupAccountConfig cfg
      (accountId.getD (resolveDefaultXmtpAccountId cfg)) with
  | none =>
    rw [resolveXmtpAccount] at h
    simp only [hl] at h
    simp at h
  | some acc =>
    rw [resolveXmtpAccount] at h ⊢
    simp only [hl] at h ⊢
    simp only [Bool.and_eq_true, decide_eq_true_eq] at h
    exact ⟨h.1.2, h.2⟩

theorem configured_key_shape_witness :
    startsWithJS (resolveXmtpAccount (fun _ => none) (cfgWithKey goodHexKey)
      (some (("a").data))).privateKey (("0x").data) = true
  ∧ (resolveXmtpAccount (fun _ => none) (cfgWithKey goodHexKey)
      (some (("a").data))).privateKey.length = 66 :=
  configured_key_shape (fun _ => none) (cfgWithKey goodHexKey)
    (some (("a").data)) (by decide)

/-! ### C4: placeholder resolution of the private key -/

theorem startsWithJS_append (p s : JSString) : startsWithJS (p ++ s) p = true := by
  induction p with
  | nil => cases s <;> rfl
  | cons c p1 ih => simp [startsWithJS, ih]

/-- C4: the raw private key value is substituted from the environment exactly
when it has the placeholder form (a dollar sign and opening brace, the
variable name, a closing brace): the named variable's value is used, the
empty string when it is unset; any value not of that form is used literally.
In particular, with the placeholder for FOO and FOO unset the account resolves
with `configured == false`, and with FOO set to `0x` plus 64 hex characters it
resolves with `configured == true`. -/
theorem placeholder_key_resolution :
    (∀ (env : Env) (nm : JSString),
      resolvePrivateKeyEnv env ((("$\x7b").data) ++ nm ++ (("\x7d").data)) =
        (env nm).getD [])
  ∧ (∀ (env : Env) (raw : JSString),
      (startsWithJS raw (("$\x7b").data) && endsWithJS raw (("\x7d").data)) = false →
        resolvePrivateKeyEnv env raw = raw)
  ∧ (∀ (env : Env) (cfg : OpenClawConfig) (aid : JSString) (acc : XmtpAccountConfig),
      lookupAccountConfig cfg aid = some acc →
        (resolveXmtpAccount env cfg (some aid)).privateKey =
          resolvePrivateKeyEnv env (acc.privateKey.getD []))
  ∧ (resolveXmtpAccount (fun _ => none) cfgFOO (some (("acc").data))).configured = false
  ∧ (resolveXmtpAccount envFOO cfgFOO (some (("acc").data))).configured = true := by
  refine ⟨?_, ?_, ?_, by decide, by decide⟩
  · intro env nm
    have hsplit : (("$\x7b").data) ++ nm ++ (("\x7d").data) =
        '$' :: '\x7b' :: (nm ++ ['\x7d']) := by
      simp
    rw [hsplit, resolvePrivateKeyEnv]
    have hstart : startsWithJS ('$' :: '\x7b' :: (nm ++ ['\x7d']))
        (("$\x7b").data) = true := by
      simp [startsWithJS]
    have hend : endsWithJS ('$' :: '\x7b' :: (nm ++ ['\x7d']))
        (("\x7d").data) = true := by
      simp [endsWithJS, startsWithJS]
    rw [hstart, hend]
    simp [List.dropLast_concat]
  · intro env raw hcond
    rw [resolvePrivateKeyEnv, hcond]
    simp
  · intro env cfg aid acc hl
    rw [resolveXmtpAccount]
    simp only [Option.getD_some, hl]

theorem placeholder_key_resolution_witness :
    resolvePrivateKeyEnv (fun _ => none) (("literalkey").data) =
      ("literalkey").data :=
  placeholder_key_resolution.2.1 (fun _ => none) (("literalkey").data) (by decide)

/-! ### C7: normalization is idempotent and case/whitespace-insensitive -/

theorem toNat_ofNat_small (n : Nat) (h : n < 55296) : (Char.ofNat n).toNat = n := by
  rw [Char.ofNat, dif_pos (Or.inl h)]
  simp [Char.ofNatAux, Char.toNat, UInt32.toNat]

theorem jsToLower_toNat (c : Char) (h : 65 ≤ c.toNat ∧ c.toNat ≤ 90) :
    (jsToLower c).toNat = c.toNat + 32 := by
  rw [jsToLower, if_pos h]
  exact toNat_ofNat_small _ (by omega)

theorem jsToLower_of_not_upper (c : Char)
    (h : ¬ (65 ≤ c.toNat ∧ c.toNat ≤ 90)) : jsToLower c = c := by
  rw [jsToLower, if_neg h]

theorem jsToLower_idem (c : Char) : jsToLower (jsToLower c) = jsToLower c := by
  by_cases h : 65 ≤ c.toNat ∧ c.toNat ≤ 90
  · apply jsToLower_of_not_upper
    have h1 := jsToLower_toNat c h
    omega
  · simp [jsToLower_of_not_upper c h]

theorem jsIsWhitespace_toLower (c : Char) :
    jsIsWhitespace (jsToLower c) = jsIsWhitespace c := by
  by_cases h : 65 ≤ c.toNat ∧ c.toNat ≤ 90
  · have h1 := jsToLower_toNat c h
    have e1 : ¬ ((jsToLower c).toNat ∈ [9, 10, 11, 12, 13, 32, 160, 5760, 8192,
        8193, 8194, 8195, 8196, 8197, 8198, 8199, 8200, 8201, 8202, 8232, 8233,
        8239, 8287, 12288, 65279]) := by
      intro hmem
      simp [List.mem_cons] at hmem
      omega
    have e2 : ¬ (c.toNat ∈ [9, 10, 11, 12, 13, 32, 160, 5760, 8192, 8193, 8194,
        8195, 8196, 8197, 8198, 8199, 8200, 8201, 8202, 8232, 8233, 8239, 8287,
        12288, 65279]) := by
      intro hmem
      simp [List.mem_cons] at hmem
      omega
    rw [jsIsWhitespace, jsIsWhitespace, decide_eq_false e1, decide_eq_false e2]
  · rw [jsToLower_of_not_upper c h]

theorem dropWhile_dropWhile (p : Char → Bool) (l : List Char) :
    (l.dropWhile p).dropWhile p = l.dropWhile p := by
  induction l with
  | nil => rfl
  | cons a t ih =>
    cases hpa : p a with
    | false => simp [List.dropWhile_cons, hpa]
    | true => simp [List.dropWhile_cons, hpa, ih]

theorem dropWhile_map (f : Char → Char) (p : Char → Bool)
    (hp : ∀ c, p (f c) = p c) (l : List Char) :
    (l.map f).dropWhile p = (l.dropWhile p).map f := by
  induction l with
  | nil => rfl
  | cons a t ih =>
    cases hpa : p a with
    | false => simp [List.dropWhile_cons, hp a, hpa]
    | true => simp [List.dropWhile_cons, hp a, hpa, ih]

theorem dropWhile_append_all (p : Char → Bool) (w l : List Char)
    (hw : ∀ c ∈ w, p c = true) :
    (w ++ l).dropWhile p = l.dropWhile p := by
  induction w with
  | nil => rfl
  | cons a t ih =>
    have ha : p a = true := hw a (by simp)
    simp only [List.cons_append, List.dropWhile_cons, ha, if_pos]
    exact ih (fun c hc => hw c (by simp [hc]))

theorem dropWhile_append_of_ne_nil (p : Char → Bool) (m B : List Char)
    (hm : m.dropWhile p ≠ []) :
    (m ++ B).dropWhile p = m.dropWhile p ++ B := by
  induction m with
  | nil => simp [List.dropWhile_nil] at hm
  | cons a t ih =>
    cases hpa : p a with
    | false => simp [List.dropWhile_cons, hpa]
    | true =>
      have hm2 : t.dropWhile p ≠ [] := by
        simpa [List.dropWhile_cons, hpa] using hm
      simp [List.dropWhile_cons, hpa, ih hm2]

theorem head_dropWhile_false (p : Char → Bool) (l : List Char) (a : Char)
    (t : List Char) (h : l.dropWhile p = a :: t) : p a = false := by
  induction l with
  | nil => simp [List.dropWhile_nil] at h
  | cons b m ih =>
    cases hpb : p b with
    | false =>
      rw [List.dropWhile_cons, if_neg (by simp [hpb])] at h
      cases h
      exact hpb
    | true =>
      rw [List.dropWhile_cons, if_pos (by simp [hpb])] at h
      exact ih h

theorem dropWhile_eq_self (p : Char → Bool) (l : List Char)
    (h : ∀ a t, l = a :: t → p a = false) : l.dropWhile p = l := by
  cases l with
  | nil => rfl
  | cons a t => rw [List.dropWhile_cons, if_neg (by simp [h a t rfl])]

theorem getLast?_dropWhile (p : Char → Bool) (l : List Char)
    (h : l.dropWhile p ≠ []) : (l.dropWhile p).getLast? = l.getLast? := by
  induction l with
  | nil => simp [List.dropWhile_nil] at h
  | cons a t ih =>
    cases hpa : p a with
    | false => rw [List.dropWhile_cons, if_neg (by simp [hpa])]
    | true =>
      rw [List.dropWhile_cons, if_pos (by simp [hpa])] at h ⊢
      rw [ih h]
      cases t with
      | nil => exact absurd (by simp [List.dropWhile_nil]) h
      | cons b u => simp [List.getLast?_cons_cons]

theorem jsTrim_head (l : List Char) (a : Char) (t : List Char)
    (h : jsTrim l = a :: t) : jsIsWhitespace a = false := by
  unfold jsTrim at h
  have hW : ((l.dropWhile jsIsWhitespace).reverse.dropWhile jsIsWhitespace) ≠ [] := by
    intro h0
    rw [h0] at h
    simp at h
  have hlast : ((l.dropWhile jsIsWhitespace).reverse.dropWhile
      jsIsWhitespace).getLast? = some a := by
    rw [← List.head?_reverse, h]
    rfl
  rw [getLast?_dropWhile _ _ hW, List.getLast?_reverse] at hlast
  cases hz : l.dropWhile jsIsWhitespace with
  | nil => rw [hz] at hlast; simp at hlast
  | cons b u =>
    rw [hz] at hlast
    simp at hlast
    exact hlast ▸ head_dropWhile_false _ _ _ _ hz

theorem jsTrim_last (l : List Char) (a : Char)
    (h : (jsTrim l).getLast? = some a) : jsIsWhitespace a = false := by
  unfold jsTrim at h
  rw [List.getLast?_reverse] at h
  cases hW : (l.dropWhile jsIsWhitespace).reverse.dropWhile jsIsWhitespace with
  | nil => rw [hW] at h; simp at h
  | cons b u =>
    rw [hW] at h
    simp at h
    exact h ▸ head_dropWhile_false _ _ _ _ hW

theorem jsTrim_of_trimmed (l : List Char)
    (h1 : ∀ a t, l = a :: t → jsIsWhitespace a = false)
    (h2 : ∀ a, l.getLast? = some a → jsIsWhitespace a = false) :
    jsTrim l = l := by
  unfold jsTrim
  rw [dropWhile_eq_self _ l h1]
  cases hl : l.reverse with
  | nil =>
    have : l = [] := by simpa using congrArg List.reverse hl
    simp [this]
  | cons a t =>
    have ha : l.getLast? = some a := by
      rw [← List.head?_reverse, hl]
      rfl
    have hpa : jsIsWhitespace a = false := h2 a ha
    have hself : List.dropWhile jsIsWhitespace (a :: t) = a :: t :=
      dropWhile_eq_self _ (a :: t) (fun b u hbu => by
        injection hbu with hb hu
        exact hb ▸ hpa)
    rw [hself, ← hl, List.reverse_reverse]

theorem jsTrim_idem (l : List Char) : jsTrim (jsTrim l) = jsTrim l := by
  apply jsTrim_of_trimmed
  · exact fun a t h => jsTrim_head l a t h
  · exact fun a h => jsTrim_last l a h

theorem map_jsTrim (l : List Char) :
    (jsTrim l).map jsToLower = jsTrim (l.map jsToLower) := by
  simp only [jsTrim, dropWhile_map jsToLower jsIsWhitespace jsIsWhitespace_toLower,
    ← List.map_reverse]

theorem map_jsToLower_idem (l : List Char) :
    (l.map jsToLower).map jsToLower = l.map jsToLower := by
  simp [List.map_map, Function.comp_def, jsToLower_idem]

theorem normalizeAddress_idem (x : JSString) :
    normalizeAddress (normalizeAddress x) = normalizeAddress x := by
  unfold normalizeAddress
  rw [map_jsTrim (x.map jsToLower), map_jsToLower_idem, jsTrim_idem]

theorem jsTrim_sandwich (w1 m w2 : List Char)
    (h1 : ∀ c ∈ w1, jsIsWhitespace c = true)
    (h2 : ∀ c ∈ w2, jsIsWhitespace c = true) :
    jsTrim (w1 ++ m ++ w2) = jsTrim m := by
  rw [List.append_assoc]
  unfold jsTrim
  rw [dropWhile_append_all _ w1 _ h1]
  by_cases hm : m.dropWhile jsIsWhitespace = []
  · have hmw2 : (m ++ w2).dropWhile jsIsWhitespace = [] := by
      apply List.dropWhile_eq_nil_iff.mpr
      intro c hc
      rcases List.mem_append.mp hc with h | h
      · exact List.dropWhile_eq_nil_iff.mp hm c h
      · exact h2 c h
    rw [hmw2, hm]
  · rw [dropWhile_append_of_ne_nil _ _ _ hm, List.reverse_append,
      dropWhile_append_all _ w2.reverse _
        (fun c hc => h2 c (List.mem_reverse.mp hc))]

/-- C7: address normalization is idempotent, and case- and whitespace-
insensitive: strings differing only in letter case (same image under
lowercasing) and in leading/trailing whitespace normalize to the same value;
in particular the spaced upper-case sample and its lower-case form agree. -/
theorem normalizeAddress_spec :
    (∀ x : JSString, normalizeAddress (normalizeAddress x) = normalizeAddress x)
  ∧ normalizeAddress ((" 0xABC ").data) = normalizeAddress (("0xabc").data)
  ∧ (∀ (w1 w2 w3 w4 x y : JSString),
      (∀ c ∈ w1, jsIsWhitespace c = true) → (∀ c ∈ w2, jsIsWhitespace c = true) →
      (∀ c ∈ w3, jsIsWhitespace c = true) → (∀ c ∈ w4, jsIsWhitespace c = true) →
      x.map jsToLower = y.map jsToLower →
      normalizeAddress (w1 ++ x ++ w2) = normalizeAddress (w3 ++ y ++ w4)) := by
  refine ⟨normalizeAddress_idem, by decide, ?_⟩
  intro w1 w2 w3 w4 x y h1 h2 h3 h4 hxy
  unfold normalizeAddress
  rw [List.map_append, List.map_append, List.map_append, List.map_append]
  rw [jsTrim_sandwich _ _ _
      (fun c hc => by
        obtain ⟨c0, hc0, rfl⟩ := List.mem_map.mp hc
        rw [jsIsWhitespace_toLower]
        exact h1 c0 hc0)
      (fun c hc => by
        obtain ⟨c0, hc0, rfl⟩ := List.mem_map.mp hc
        rw [jsIsWhitespace_toLower]
        exact h2 c0 hc0),
    jsTrim_sandwich _ _ _
      (fun c hc => by
        obtain ⟨c0, hc0, rfl⟩ := List.mem_map.mp hc
        rw [jsIsWhitespace_toLower]
        exact h3 c0 hc0)
      (fun c hc => by
        obtain ⟨c0, hc0, rfl⟩ := List.mem_map.mp hc
        rw [jsIsWhitespace_toLower]
        exact h4 c0 hc0),
    hxy]

theorem normalizeAddress_spec_witness :
    normalizeAddress (([' ']) ++ ("0xA").data ++ ([' '])) =
      normalizeAddress (([]) ++ ("0xa").data ++ ([])) :=
  normalizeAddress_spec.2.2 [' '] [' '] [] [] (("0xA").data) (("0xa").data)
    (by decide) (by decide) (by decide) (by decide) (by decide)

/-! ### C2: the capacity bound of the deduplication store -/

theorem assocSet_of_not_mem {α : Type} (s : List (JSString × α)) (k : JSString)
    (v : α) (h : k ∉ assocKeys s) : assocSet s k v = s ++ [(k, v)] := by
  induction s with
  | nil => rfl
  | cons hd tl ih =>
    obtain ⟨k1, v1⟩ := hd
    rw [show assocKeys ((k1, v1) :: tl) = k1 :: assocKeys tl from rfl] at h
    have hne : k1 ≠ k := by
      intro he
      exact h (by rw [he]; exact List.mem_cons_self _ _)
    have h2 : k ∉ assocKeys tl := fun hmem => h (List.mem_cons_of_mem k1 hmem)
    simp [assocSet, hne, ih h2]

theorem markSeen_of_lt (now : Nat) (s : SeenMap) (id : JSString)
    (h : s.length < maxSize) : markSeen now s id = assocSet s id now := by
  rw [markSeen]
  simp [Nat.not_le.mpr h]

theorem markMany_fresh (t : Nat) : ∀ (ids : List JSString) (s : SeenMap),
    s.length + ids.length ≤ maxSize → ids.Nodup →
    (∀ id ∈ ids, id ∉ assocKeys s) →
    markMany t ids s = s ++ ids.map (fun id => (id, t)) := by
  intro ids
  induction ids with
  | nil =>
    intro s _ _ _
    simp [markMany]
  | cons id rest ih =>
    intro s hlen hnd hfresh
    have hlt : s.length < maxSize := by
      simp at hlen
      omega
    have hnotmem : id ∉ assocKeys s := hfresh id (by simp)
    have hstep : markSeen t s id = s ++ [(id, t)] := by
      rw [markSeen_of_lt _ _ _ hlt, assocSet_of_not_mem _ _ _ hnotmem]
    have hunfold : markMany t (id :: rest) s = markMany t rest (markSeen t s id) := rfl
    have hlen2 : (s ++ [(id, t)]).length + rest.length ≤ maxSize := by
      simp at hlen ⊢
      omega
    have hnd2 : rest.Nodup := (List.nodup_cons.mp hnd).2
    have hfresh2 : ∀ i ∈ rest, i ∉ assocKeys (s ++ [(id, t)]) := by
      intro i hi hmem
      have hkeys : assocKeys (s ++ [(id, t)]) = assocKeys s ++ [id] := by
        simp [assocKeys]
      rw [hkeys] at hmem
      rcases List.mem_append.mp hmem with hmem1 | hmem1
      · exact hfresh i (List.mem_cons_of_mem _ hi) hmem1
      · have : i = id := by simpa using hmem1
        exact (List.nodup_cons.mp hnd).1 (this ▸ hi)
    rw [hunfold, hstep, ih (s ++ [(id, t)]) hlen2 hnd2 hfresh2]
    simp

theorem idOf_injective : Function.Injective idOf := by
  intro a b h
  have := congrArg List.length h
  simpa [idOf] using this

/-- C2 / code bug witness computation: starting from an empty tracker, marking
the empty-string id first and then 10000 further distinct ids (all within the
TTL window) leaves the store with 10001 entries — one more than `maxSize`.
When the store is full with no expired entry and its oldest key is the empty
string, the eviction guard `if (oldest)` treats that key as falsy and skips
the deletion, so the insertion exceeds the capacity bound. -/
theorem dedup_capacity_overflow :
    maxSize = 10000 ∧
    (markSeen 1 (markMany 1 ((List.range 10000).map idOf) []) (idOf 10000)).length
      = 10001 := by
  have hS : markMany 1 ((List.range 10000).map idOf) [] =
      (List.range 10000).map (fun n => (idOf n, 1)) := by
    rw [markMany_fresh 1 _ [] (by simp [maxSize])
      (List.Nodup.map idOf_injective (List.nodup_range 10000))
      (by simp [assocKeys])]
    simp [List.map_map]
  have hlenS : ((List.range 10000).map (fun n => (idOf n, 1))).length = 10000 := by
    simp
  have hprune : pruneExpired 1 ((List.range 10000).map (fun n => (idOf n, 1))) =
      (List.range 10000).map (fun n => (idOf n, 1)) := by
    apply List.filter_eq_self.mpr
    intro p hp
    obtain ⟨n, hn, rfl⟩ := List.mem_map.mp hp
    rfl
  have hcons : (List.range 10000).map (fun n => (idOf n, 1)) =
      (([], 1) : JSString × Nat) ::
        (List.range 9999).map (fun n => (idOf (n + 1), 1)) := by
    rw [show (10000 : Nat) = 9999 + 1 from rfl, List.range_succ_eq_map]
    simp [List.map_map, Function.comp_def, Nat.succ_eq_add_one]
    rfl
  have hevict : evictOldest ((List.range 10000).map (fun n => (idOf n, 1))) =
      (List.range 10000).map (fun n => (idOf n, 1)) := by
    rw [hcons]
    simp [evictOldest]
  have hfresh10000 : idOf 10000 ∉
      assocKeys ((List.range 10000).map (fun n => (idOf n, 1))) := by
    intro hmem
    simp only [assocKeys, List.map_map] at hmem
    obtain ⟨n, hn, he⟩ := List.mem_map.mp hmem
    have : n = 10000 := idOf_injective he
    have : n < 10000 := List.mem_range.mp hn
    omega
  have hfin : markSeen 1 ((List.range 10000).map (fun n => (idOf n, 1)))
      (idOf 10000) =
      ((List.range 10000).map (fun n => (idOf n, 1))) ++ [(idOf 10000, 1)] := by
    rw [markSeen]
    simp only [hlenS, hprune, hevict]
    rw [if_pos (by rw [maxSize])]
    exact assocSet_of_not_mem _ _ _ hfresh10000
  refine ⟨rfl, ?_⟩
  rw [hS, hfin]
  simp
